import Mathlib

/-!
Verification development for the `nathanyount-api` book-feed service
(`src/app.py`).  The Python helpers are shallowly embedded as executable
Lean functions over `List Char` / `String`:

* `grab_user_rating` models `_grab_user_rating` (regex
  `user[\s_-]*rating\s*:\s*([0-5])\b`, case-insensitive, plus the
  structured-entry fallback loop);
* `pick_finished_date` models `_pick_finished_date` with its three stages;
* `to_dt` models `_to_dt` (a try/except wrapper around
  `dateutil.parser.parse`), restricted to the numeric year-first date
  formats exercised in this development;
* `build_record` models the per-entry body of `_parse_finished`
  (title/author disambiguation, rating collapse, review extraction);
* `sortTsDesc` models `items.sort(key=..., reverse=True)` (stable,
  descending by `finished_ts`);
* `finishedStep` models one request through the `finished` route
  (configuration check, `nocache` handling, cache hit test, refresh,
  fetch-failure propagation), with the upstream fetch outcome passed in
  as an `Except` value.

Python regular-expression searches are embedded as leftmost-match
scanners; the greedy pieces of each pattern are resolved by maximal munch,
which is exact here because in every pattern the token following a starred
class can never belong to that class (checked pattern by pattern below).
-/

/-- Python `\s` (ASCII): space, tab, newline, carriage return, vertical
tab, form feed. -/
def isPySpace (c : Char) : Bool :=
  c = ' ' || c = '\t' || c = '\n' || c = '\r' || c = '\x0b' || c = '\x0c'

/-- Python regex word character `\w` (ASCII part): letters, digits,
underscore. -/
def isWordChar (c : Char) : Bool :=
  c.isAlpha || c.isDigit || c = '_'

/-- Python `str.strip()`: remove leading and trailing whitespace. -/
def pyStrip (s : List Char) : List Char :=
  ((s.dropWhile isPySpace).reverse.dropWhile isPySpace).reverse

/-- Case-insensitive literal match at the head of `s`; on success returns
the remainder of `s`. -/
def matchLit : List Char → List Char → Option (List Char)
  | [], s => some s
  | _ :: _, [] => none
  | p :: ps, c :: cs => if c.toLower = p.toLower then matchLit ps cs else none

/-- Leftmost-match scanner: try the position matcher `f` at every suffix
of the input, left to right. Models `re.search` for patterns that cannot
match the empty string. -/
def scanFirst {α : Type} (f : List Char → Option α) : List Char → Option α
  | [] => none
  | c :: t =>
    match f (c :: t) with
    | some a => some a
    | none => scanFirst f t

/-- Case-sensitive substring test, models Python `needle in hay`. -/
def hasSubstr (needle : List Char) : List Char → Bool
  | [] => needle.isEmpty
  | c :: t => needle.isPrefixOf (c :: t) || hasSubstr needle t

/-- Value of a character under the regex class `[0-5]`. -/
def digit05 (c : Char) : Option Nat :=
  if c = '0' then some 0
  else if c = '1' then some 1
  else if c = '2' then some 2
  else if c = '3' then some 3
  else if c = '4' then some 4
  else if c = '5' then some 5
  else none

/-- Characters accepted by the class `[\s_-]`. -/
def isSepClass (c : Char) : Bool :=
  isPySpace c || c = '_' || c = '-'

/-- Match of `user[\s_-]*rating\s*:\s*([0-5])\b` (case-insensitive)
anchored at the head of the input, returning the captured digit. -/
def userRatingAt (s : List Char) : Option Nat :=
  match matchLit "user".data s with
  | none => none
  | some r1 =>
    match matchLit "rating".data (r1.dropWhile isSepClass) with
    | none => none
    | some r2 =>
      match r2.dropWhile isPySpace with
      | ':' :: r3 =>
        match r3.dropWhile isPySpace with
        | c :: r4 =>
          match digit05 c with
          | some n =>
            match r4 with
            | [] => some n
            | d :: _ => if isWordChar d then none else some n
          | none => none
        | [] => none
      | _ => none

/-- Capture of `(.+)` after an optional `\s*` run (Python `.` excludes
only the newline), with the backtracking of the greedy `\s*` resolved:
if anything follows the whitespace run the capture is the rest of that
line; otherwise the capture restarts at the last non-newline whitespace
character, if any. -/
def capturePlus (t : List Char) : Option (List Char) :=
  let ws := t.takeWhile isPySpace
  let rest := t.drop ws.length
  match rest with
  | _ :: _ => some (rest.takeWhile (fun c => c ≠ '\n'))
  | [] =>
    match ws.reverse.dropWhile (fun c => c = '\n') with
    | [] => none
    | l@(_ :: _) => some ((ws.drop (l.length - 1)).takeWhile (fun c => c ≠ '\n'))

/-- Match of `\s*:\s*(.+)` anchored at the head of the input. -/
def colonCapture (s : List Char) : Option (List Char) :=
  match s.dropWhile isPySpace with
  | ':' :: u => capturePlus u
  | _ => none

/-- Match of `<lab>\s*:\s*(.+)` (case-insensitive) anchored at the head
of the input. -/
def labelAt (lab : List Char) (s : List Char) : Option (List Char) :=
  match matchLit lab s with
  | some rest => colonCapture rest
  | none => none

/-- Model of `re.search(rf"{lab}\s*:\s*(.+)", text, re.IGNORECASE)`,
returning the first capture group. -/
def searchLabel (lab : String) (text : List Char) : Option (List Char) :=
  scanFirst (labelAt lab.data) text

/-- Model of `re.search(r"user[\s_-]*rating\s*:\s*([0-5])\b", text,
re.IGNORECASE)`, returning the captured digit. -/
def searchUserRating (text : List Char) : Option Nat :=
  scanFirst userRatingAt text

/-- Model of `re.search(r"\b([0-5])\b", s)` (case-sensitive): leftmost
digit `0`-`5` that is flanked by word boundaries.  `prev` is the
character immediately before the current position, if any. -/
def findDigit05 (prev : Option Char) : List Char → Option Nat
  | [] => none
  | c :: rest =>
    match digit05 c with
    | some n =>
      if (match prev with | none => true | some p => !isWordChar p)
          && (match rest with | [] => true | d :: _ => !isWordChar d) then
        some n
      else findDigit05 (some c) rest
    | none => findDigit05 (some c) rest

/-- Python values stored in a feed entry mapping: integers (numbers) or
strings.  `feedparser` entries behave as string-keyed dictionaries. -/
inductive EntryVal where
  | int (n : Int)
  | str (s : String)
deriving Repr, DecidableEq

/-- A structured feed entry: association list of key/value pairs, in the
iteration order of the Python dictionary. -/
abbrev Entry := List (String × EntryVal)

/-- Python `entry.get(k)`. -/
def entryGet (e : Entry) (k : String) : Option EntryVal :=
  match e.find? (fun kv => kv.1 == k) with
  | some kv => some kv.2
  | none => none

/-- Python truthiness of an entry value: `0` and `""` are falsy. -/
def EntryVal.truthy : EntryVal → Bool
  | .int n => n ≠ 0
  | .str s => s ≠ ""

/-- Python `str(v)`. -/
def EntryVal.pyStr : EntryVal → String
  | .int n => toString n
  | .str s => s

/-- Python `str.lower()` (ASCII). -/
def strToLower (s : String) : String :=
  String.mk (s.data.map Char.toLower)

/-- The structured-entry fallback loop of `_grab_user_rating`: for each
key containing both `user` and `rating` (lower-cased), accept a numeric
value in `[0, 5]` directly, otherwise scan `str(v)` for a standalone
digit `0`-`5`. -/
def grabFromEntry : Entry → Option Nat
  | [] => none
  | (k, v) :: rest =>
    if hasSubstr "user".data (strToLower k).data
        && hasSubstr "rating".data (strToLower k).data then
      match v with
      | .int n =>
        if 0 ≤ n ∧ n ≤ 5 then some n.toNat
        else
          match findDigit05 none (toString n).data with
          | some d => some d
          | none => grabFromEntry rest
      | .str s =>
        match findDigit05 none s.data with
        | some d => some d
        | none => grabFromEntry rest
    else grabFromEntry rest

/-- Model of `_grab_user_rating`: the reader rating as `some n`
(`n ∈ [0,5]`), or `none` for the Python empty string (unrated). -/
def grab_user_rating (desc_text : List Char) (entry : Entry) : Option Nat :=
  match searchUserRating desc_text with
  | some n => some n
  | none => grabFromEntry entry

/-- A calendar date, as produced by the date parser (the time-of-day of a
bare date parse is midnight). -/
structure PyDate where
  year : Nat
  month : Nat
  day : Nat
deriving Repr, DecidableEq

/-- Gregorian leap-year test. -/
def isLeap (y : Nat) : Bool :=
  (y % 4 = 0 && y % 100 ≠ 0) || y % 400 = 0

/-- Number of days in a month. -/
def daysInMonth (y m : Nat) : Nat :=
  if m = 2 then (if isLeap y then 29 else 28)
  else if m = 4 || m = 6 || m = 9 || m = 11 then 30
  else 31

/-- Parse a non-empty all-digit character list as a natural number. -/
def parseNat (l : List Char) : Option Nat :=
  if !l.isEmpty && l.all Char.isDigit then
    some (l.foldl (fun acc c => 10 * acc + (c.toNat - '0'.toNat)) 0)
  else none

/-- Split on the date separators `-` and `/`. -/
def splitDateSeps (l : List Char) : List (List Char) :=
  l.foldr
    (fun c acc =>
      if c = '-' || c = '/' then [] :: acc
      else
        match acc with
        | a :: rest => (c :: a) :: rest
        | [] => [[c]])
    [[]]

/-- Model of `_to_dt`: a try/except wrapper around
`dateutil.parser.parse` that returns `none` instead of raising.  The
external `dateutil` parser is modelled on the formats exercised in this
development: a 4-digit year, month and day separated by `-` or `/`, with
calendar validation; anything else parses to `none`. -/
def to_dt (s : String) : Option PyDate :=
  match splitDateSeps (pyStrip s.data) with
  | [ys, ms, ds] =>
    if ys.length = 4 ∧ 1 ≤ ms.length ∧ ms.length ≤ 2 ∧ 1 ≤ ds.length ∧ ds.length ≤ 2 then
      match parseNat ys, parseNat ms, parseNat ds with
      | some y, some m, some d =>
        if 1 ≤ m ∧ m ≤ 12 ∧ 1 ≤ d ∧ d ≤ daysInMonth y m then some ⟨y, m, d⟩
        else none
      | _, _, _ => none
    else none
  | _ => none

/-- Days from the Unix epoch (1970-01-01) to the given civil date;
negative for earlier dates.  Standard civil-calendar conversion using
floor division. -/
def days_from_civil (dt : PyDate) : Int :=
  let y : Int := if dt.month ≤ 2 then (dt.year : Int) - 1 else (dt.year : Int)
  let era : Int := Int.fdiv y 400
  let yoe : Int := y - era * 400
  let mp : Int := if dt.month ≤ 2 then (dt.month : Int) + 9 else (dt.month : Int) - 3
  let doy : Int := Int.fdiv (153 * mp + 2) 5 + (dt.day : Int) - 1
  let doe : Int := yoe * 365 + Int.fdiv yoe 4 - Int.fdiv yoe 100 + doy
  era * 146097 + doe - 719468

/-- Model of `int(dt.timestamp())` for a midnight datetime, with the
clock taken as UTC: seconds since the epoch, negative before 1970. -/
def ts_of (dt : PyDate) : Int :=
  86400 * days_from_civil dt

/-- Left-pad a decimal rendering with zeros to width `w`. -/
def padNum (w n : Nat) : List Char :=
  List.replicate (w - (toString n).data.length) '0' ++ (toString n).data

/-- Model of `dt.date().isoformat()`: `YYYY-MM-DD`. -/
def iso_date (dt : PyDate) : String :=
  String.mk (padNum 4 dt.year ++ '-' :: (padNum 2 dt.month ++ '-' :: padNum 2 dt.day))

/-- One step-1 probe of `_pick_finished_date`: a label matched in the
description blob whose stripped capture is non-empty and parses. -/
def tryTextLabel (lab : String) (text : List Char) : Option PyDate :=
  match searchLabel lab text with
  | some cap =>
    let raw := pyStrip cap
    if raw.isEmpty then none else to_dt (String.mk raw)
  | none => none

/-- One step-2 probe of `_pick_finished_date`: a truthy structured entry
value that parses. -/
def tryEntryKey (e : Entry) (k : String) : Option PyDate :=
  match entryGet e k with
  | some v => if v.truthy then to_dt v.pyStr else none
  | none => none

/-- Labels probed in the description blob in step 1 of
`_pick_finished_date`. -/
def primaryTextLabels : List String := ["read_at", "date_read", "user_read_at"]

/-- Entry keys probed in step 2 of `_pick_finished_date`. -/
def entryDateKeys : List String :=
  ["user_read_at", "read_at", "date_read", "gr_read_at", "gr_date_read", "user_date_read"]

/-- Labels of the fallback stage (step 3) of `_pick_finished_date`. -/
def fallbackLabels : List String :=
  ["user_date_updated", "date_updated", "user_date_added", "date_added", "pubdate", "published"]

/-- Step 1 of `_pick_finished_date`: scan the description blob for the
primary labels. -/
def primaryFromText (text : List Char) : Option PyDate :=
  primaryTextLabels.findSome? (fun lab => tryTextLabel lab text)

/-- Step 2 of `_pick_finished_date`: probe the structured entry keys. -/
def primaryFromEntry (e : Entry) : Option PyDate :=
  entryDateKeys.findSome? (tryEntryKey e)

/-- One probe of the fallback stage of `_pick_finished_date`: for a
single label, first the description blob, then the same label as a
structured entry key. -/
def fallbackProbe (text : List Char) (e : Entry) (lab : String) : Option PyDate :=
  match tryTextLabel lab text with
  | some d => some d
  | none => tryEntryKey e lab

/-- Step 3 of `_pick_finished_date`: probe the fallback labels in order,
each one first in the text blob and then as a structured key. -/
def fallbackPick (text : List Char) (e : Entry) : Option PyDate :=
  fallbackLabels.findSome? (fallbackProbe text e)

/-- Model of `_pick_finished_date`: `(finished_at, finished_ts)`, the ISO
date string and epoch seconds, or `("", 0)` when nothing is found.  The
nested matches mirror the early returns of the Python function. -/
def pick_finished_date (text : List Char) (e : Entry) : String × Int :=
  match primaryFromText text with
  | some dt => (iso_date dt, ts_of dt)
  | none =>
    match primaryFromEntry e with
    | some dt => (iso_date dt, ts_of dt)
    | none =>
      match fallbackPick text e with
      | some dt => (iso_date dt, ts_of dt)
      | none => ("", 0)

/-- Match of `review\s*:\s*(.*)` (case-insensitive, DOTALL) anchored at
the head of the input: the capture runs to the end of the text. -/
def reviewBodyAt (s : List Char) : Option (List Char) :=
  match matchLit "review".data s with
  | some r1 =>
    match r1.dropWhile isPySpace with
    | ':' :: r2 => some (r2.dropWhile isPySpace)
    | _ => none
  | none => none

/-- Scan for `\n` positions followed by the review body. -/
def searchReviewNl : List Char → Option (List Char)
  | [] => none
  | c :: t =>
    if c = '\n' then
      match reviewBodyAt t with
      | some cap => some cap
      | none => searchReviewNl t
    else searchReviewNl t

/-- Model of `re.search(r"(?:^|\n)review\s*:\s*(.*)", text,
re.IGNORECASE | re.DOTALL)`: the `^` alternative (start of string, since
MULTILINE is off) is tried first, then every newline position. -/
def searchReview (s : List Char) : Option (List Char) :=
  match reviewBodyAt s with
  | some cap => some cap
  | none => searchReviewNl s

/-- Model of `_extract_review`. -/
def extract_review (text : List Char) : String :=
  match searchReview text with
  | some cap => String.mk (pyStrip cap)
  | none => ""

/-- Match of `(?:author|author_name)\s*:\s*(.+)` (case-insensitive)
anchored at the head of the input: the regex alternation tries `author`
first, then `author_name`. -/
def authorAt (s : List Char) : Option (List Char) :=
  match labelAt "author".data s with
  | some cap => some cap
  | none => labelAt "author_name".data s

/-- Model of the author search of `_parse_finished`. -/
def searchAuthor (text : List Char) : Option (List Char) :=
  scanFirst authorAt text

/-- Author string extracted from the description text (stripped capture,
or empty when the pattern does not match). -/
def authorFromText (text : List Char) : String :=
  match searchAuthor text with
  | some cap => String.mk (pyStrip cap)
  | none => ""

/-- Python `title.split(" by ", 1)` when the separator occurs: the parts
before and after the first occurrence, `none` when absent (so `isSome`
also models `" by " in title`). -/
def splitOnFirst (sep : List Char) : List Char → Option (List Char × List Char)
  | [] => if sep.isEmpty then some ([], []) else none
  | c :: t =>
    if sep.isPrefixOf (c :: t) then some ([], (c :: t).drop sep.length)
    else
      match splitOnFirst sep t with
      | some (a, b) => some (c :: a, b)
      | none => none

/-- One parsed book record, as assembled by `_parse_finished`.  The
Python rating value `int | ''` is `Option Nat` (`none` for `''`). -/
structure BookRecord where
  title : String
  author : String
  finished_at : String
  finished_ts : Int
  rating : Option Nat
  review : String
  link : String
deriving Repr, DecidableEq

/-- The rating cleanup of `_parse_finished`: integer `0` collapses to the
empty (unrated) value. -/
def cleanRating (r : Option Nat) : Option Nat :=
  if r = some 0 then none else r

/-- Title/author disambiguation of `_parse_finished`: when no author was
extracted (empty string, which is falsy) and the stripped title contains
`" by "`, split on its first occurrence and strip both parts; otherwise
keep the title and the extracted author unchanged. -/
def resolveTitleAuthor (title0 author0 : String) : String × String :=
  if author0 = "" then
    match splitOnFirst " by ".data title0.data with
    | some p => (String.mk (pyStrip p.1), String.mk (pyStrip p.2))
    | none => (title0, author0)
  else (title0, author0)

/-- Model of the per-entry body of `_parse_finished`: `titleRaw` is the
value of `e.get("title") or ""`, `link` the entry link, `text` the
line-break-preserving plain text of the description HTML (the
BeautifulSoup rendering), `e` the structured entry. -/
def build_record (titleRaw link : String) (text : List Char) (e : Entry) : BookRecord :=
  { title := (resolveTitleAuthor (String.mk (pyStrip titleRaw.data)) (authorFromText text)).1
    author := (resolveTitleAuthor (String.mk (pyStrip titleRaw.data)) (authorFromText text)).2
    finished_at := (pick_finished_date text e).1
    finished_ts := (pick_finished_date text e).2
    rating := cleanRating (grab_user_rating text e)
    review := extract_review text
    link := link }

/-- A fixed record used by concrete cache and sorting scenarios. -/
def sampleRecord : BookRecord :=
  { title := "Sample", author := "", finished_at := "", finished_ts := 0,
    rating := none, review := "", link := "" }

/-- Stable insertion into a descending-by-`finished_ts` list: the new
record is placed before the first element whose timestamp is not larger,
so it precedes equal timestamps coming later in feed order. -/
def insertTsDesc (r : BookRecord) : List BookRecord → List BookRecord
  | [] => [r]
  | x :: xs =>
    if x.finished_ts ≤ r.finished_ts then r :: x :: xs
    else x :: insertTsDesc r xs

/-- Model of `items.sort(key=lambda it: it.get("finished_ts", 0),
reverse=True)`: a stable sort, descending by `finished_ts`. -/
def sortTsDesc (l : List BookRecord) : List BookRecord :=
  l.foldr insertTsDesc []

/-- The module-level `_CACHE` dictionary: the stored items (`none` at
process start), the capture time, and the TTL.  Times are modelled as
integers. -/
structure CacheState where
  items : Option (List BookRecord)
  ts : Int
  ttl : Int
deriving Repr, DecidableEq

/-- Python truthiness of `_CACHE["items"]`: `None` and the empty list
are falsy. -/
def itemsTruthy : Option (List BookRecord) → Bool
  | some l => !l.isEmpty
  | none => false

/-- Python truthiness of `request.args.get("nocache")`: absent (`None`)
and the empty string are falsy, every other string is truthy. -/
def nocacheTruthy : Option String → Bool
  | some s => s ≠ ""
  | none => false

/-- Outcome of one request to the `finished` route. -/
inductive FinResponse where
  | configError (msg : String)
  | ok (items : List BookRecord)
  | fetchException (msg : String)
deriving Repr, DecidableEq

/-- Model of one request through the `finished` route.  `cfgUrl` is the
`GOODREADS_READ_RSS` environment value, `nocache0` the raw query
parameter, `now` the clock, and `fetchRes` the outcome `_parse_finished`
would produce if called (a raised fetch error is the `.error` case).
Returns the response, the cache state after the request, and whether an
upstream fetch was attempted. -/
def finishedStep (cfgUrl : Option String) (nocache0 : Option String) (now : Int)
    (fetchRes : Except String (List BookRecord)) (c : CacheState) :
    FinResponse × CacheState × Bool :=
  if cfgUrl = none ∨ cfgUrl = some "" then
    (.configError "GOODREADS_READ_RSS not configured", c, false)
  else
    let c1 := if nocacheTruthy nocache0 then { c with ts := 0 } else c
    if itemsTruthy c1.items ∧ now - c1.ts < c1.ttl then
      (.ok (c1.items.getD []), c1, false)
    else
      match fetchRes with
      | .ok raw =>
        let its := sortTsDesc raw
        (.ok its, { c1 with items := some its, ts := now }, true)
      | .error msg => (.fetchException msg, c1, true)

/-! ### Helper lemmas -/

lemma digit05_le {c : Char} {n : Nat} (h : digit05 c = some n) : n ≤ 5 := by
  unfold digit05 at h
  split_ifs at h <;> simp_all <;> omega


lemma userRatingAt_le {s : List Char} {n : Nat} (h : userRatingAt s = some n) : n ≤ 5 := by
  unfold userRatingAt at h
  repeat' split at h
  all_goals first
    | exact Option.noConfusion h
    | (injection h with h; subst h; exact digit05_le (by assumption))

lemma scanFirst_bound {α : Type} {P : α → Prop} {f : List Char → Option α}
    (hf : ∀ s a, f s = some a → P a) :
    ∀ s a, scanFirst f s = some a → P a := by
  intro s
  induction s with
  | nil => intro a h; exact Option.noConfusion h
  | cons c t ih =>
    intro a h
    simp only [scanFirst] at h
    split at h
    · injection h with h; subst h; exact hf _ _ (by assumption)
    · exact ih a h

lemma findDigit05_le :
    ∀ (l : List Char) (prev : Option Char) (n : Nat), findDigit05 prev l = some n → n ≤ 5 := by
  intro l
  induction l with
  | nil => intro prev n h; exact Option.noConfusion h
  | cons c rest ih =>
    intro prev n h
    simp only [findDigit05] at h
    split at h
    · split at h
      · injection h with h; subst h; exact digit05_le (by assumption)
      · exact ih _ _ h
    · exact ih _ _ h

lemma grabFromEntry_le : ∀ (e : Entry) (n : Nat), grabFromEntry e = some n → n ≤ 5 := by
  intro e
  induction e with
  | nil => intro n h; exact Option.noConfusion h
  | cons kv rest ih =>
    intro n h
    obtain ⟨k, v⟩ := kv
    simp only [grabFromEntry] at h
    split at h
    · cases v with
      | int m =>
        simp only at h
        split at h
        · injection h with h; subst h; omega
        · split at h
          · injection h with h; subst h; exact findDigit05_le _ _ _ (by assumption)
          · exact ih n h
      | str s =>
        simp only at h
        split at h
        · injection h with h; subst h; exact findDigit05_le _ _ _ (by assumption)
        · exact ih n h
    · exact ih n h

lemma grab_user_rating_le {text : List Char} {e : Entry} {n : Nat}
    (h : grab_user_rating text e = some n) : n ≤ 5 := by
  unfold grab_user_rating at h
  split at h
  · injection h with h; subst h
    exact scanFirst_bound (fun s a ha => userRatingAt_le ha) text _ (by assumption)
  · exact grabFromEntry_le e n h

lemma scanFirst_skip {α : Type} (f : List Char → Option α) :
    ∀ (k : Nat) (s : List Char), (∀ i, i < k → f (s.drop i) = none) →
      scanFirst f s = scanFirst f (s.drop k) := by
  intro k
  induction k with
  | zero => intro s _; simp
  | succ k ih =>
    intro s h
    cases s with
    | nil => simp
    | cons c t =>
      have h0 := h 0 (Nat.succ_pos k)
      simp only [List.drop_zero] at h0
      have ht := ih t (fun i hi => by
        have := h (i + 1) (Nat.succ_lt_succ hi)
        simpa [List.drop_succ_cons] using this)
      simp only [scanFirst, h0, List.drop_succ_cons]
      exact ht

lemma iso_date_ne_empty (dt : PyDate) : iso_date dt ≠ "" := by
  intro h
  have hd : padNum 4 dt.year ++ '-' :: (padNum 2 dt.month ++ '-' :: padNum 2 dt.day)
      = ([] : List Char) := congrArg String.data h
  rcases List.append_eq_nil.mp hd with ⟨-, h2⟩
  exact List.noConfusion h2

lemma pick_finished_date_empty {text : List Char} {e : Entry}
    (h : (pick_finished_date text e).1 = "") : (pick_finished_date text e).2 = 0 := by
  unfold pick_finished_date at h ⊢
  split at h
  · exact absurd h (iso_date_ne_empty _)
  · split at h
    · exact absurd h (iso_date_ne_empty _)
    · split at h
      · exact absurd h (iso_date_ne_empty _)
      · rfl

lemma resolveTitleAuthor_noSplit (t0 : String)
    (h : splitOnFirst " by ".data t0.data = none) :
    resolveTitleAuthor t0 "" = (t0, "") := by
  unfold resolveTitleAuthor
  rw [if_pos rfl, h]

lemma resolveTitleAuthor_author (t0 a : String) (ha : a ≠ "") :
    resolveTitleAuthor t0 a = (t0, a) := by
  unfold resolveTitleAuthor
  rw [if_neg ha]

lemma mem_insertTsDesc {b r : BookRecord} {l : List BookRecord} :
    b ∈ insertTsDesc r l ↔ b = r ∨ b ∈ l := by
  induction l with
  | nil => simp [insertTsDesc]
  | cons x xs ih =>
    simp only [insertTsDesc]
    split
    · simp [List.mem_cons]
    · simp only [List.mem_cons, ih]
      tauto

lemma pairwise_insertTsDesc {r : BookRecord} {l : List BookRecord}
    (h : l.Pairwise (fun a b => b.finished_ts ≤ a.finished_ts)) :
    (insertTsDesc r l).Pairwise (fun a b => b.finished_ts ≤ a.finished_ts) := by
  induction l with
  | nil => simp [insertTsDesc]
  | cons x xs ih =>
    rw [List.pairwise_cons] at h
    obtain ⟨hx, hxs⟩ := h
    simp only [insertTsDesc]
    split
    case isTrue hc =>
      rw [List.pairwise_cons]
      refine ⟨?_, List.pairwise_cons.mpr ⟨hx, hxs⟩⟩
      intro b hb
      rcases List.mem_cons.mp hb with rfl | hb2
      · exact hc
      · exact le_trans (hx b hb2) hc
    case isFalse hc =>
      rw [List.pairwise_cons]
      refine ⟨?_, ih hxs⟩
      intro b hb
      rcases mem_insertTsDesc.mp hb with rfl | hb2
      · omega
      · exact hx b hb2

lemma perm_insertTsDesc (r : BookRecord) (l : List BookRecord) :
    List.Perm (insertTsDesc r l) (r :: l) := by
  induction l with
  | nil => exact List.Perm.refl _
  | cons x xs ih =>
    simp only [insertTsDesc]
    split
    · exact List.Perm.refl _
    · exact (List.Perm.cons x ih).trans (List.Perm.swap r x xs)

lemma sortTsDesc_pairwise (l : List BookRecord) :
    (sortTsDesc l).Pairwise (fun a b => b.finished_ts ≤ a.finished_ts) := by
  induction l with
  | nil => simp [sortTsDesc]
  | cons x xs ih => exact pairwise_insertTsDesc ih

lemma sortTsDesc_perm (l : List BookRecord) : List.Perm (sortTsDesc l) l := by
  induction l with
  | nil => exact List.Perm.refl _
  | cons x xs ih => exact (perm_insertTsDesc x (sortTsDesc xs)).trans (List.Perm.cons x ih)

lemma filter_insertTsDesc (c : Int) (r : BookRecord) (l : List BookRecord) :
    (insertTsDesc r l).filter (fun x => x.finished_ts == c)
      = if r.finished_ts == c
        then r :: l.filter (fun x => x.finished_ts == c)
        else l.filter (fun x => x.finished_ts == c) := by
  induction l with
  | nil => simp [insertTsDesc, List.filter_cons]
  | cons x xs ih =>
    simp only [insertTsDesc]
    split
    case isTrue hc => simp only [List.filter_cons]
    case isFalse hc =>
      simp only [List.filter_cons, ih]
      by_cases hr : r.finished_ts = c
      · have hx : ¬(x.finished_ts = c) := by omega
        simp [beq_iff_eq, hr, hx]
      · simp [beq_iff_eq, hr]

lemma filter_sortTsDesc (l : List BookRecord) (c : Int) :
    (sortTsDesc l).filter (fun x => x.finished_ts == c)
      = l.filter (fun x => x.finished_ts == c) := by
  induction l with
  | nil => rfl
  | cons x xs ih =>
    show (insertTsDesc x (sortTsDesc xs)).filter _ = _
    rw [filter_insertTsDesc, ih, List.filter_cons]

lemma sortTsDesc_ne_nil {l : List BookRecord} (h : l ≠ []) : sortTsDesc l ≠ [] := by
  intro h0
  exact h (List.Perm.eq_nil ((sortTsDesc_perm l).symm.trans (h0 ▸ List.Perm.refl _)))

/-! ### Claim theorems -/

/-- C1 counterexample: the claim says `finished_ts` is non-negative for
every processed entry, but a pre-1970 finish date (`read_at: 1950-01-01`)
yields a negative timestamp. -/
theorem finished_ts_negative_cex :
    (build_record "T" "L" "read_at: 1950-01-01".data []).finished_at = "1950-01-01" ∧
    (build_record "T" "L" "read_at: 1950-01-01".data []).finished_ts = -631152000 ∧
    (build_record "T" "L" "read_at: 1950-01-01".data []).finished_ts < 0 := by
  refine ⟨by decide, by decide, by decide⟩

/-- C1 (amended): for every description text and structured entry, if the
built record has an empty `finished_at` then `finished_ts` is `0`; the
converse direction and non-negativity fail (a parsed date can be
pre-epoch, giving a negative timestamp, or the epoch day itself, giving
timestamp `0` with a non-empty date). -/
theorem finished_at_empty_imp_ts_zero (t l : String) (text : List Char) (e : Entry)
    (h : (build_record t l text e).finished_at = "") :
    (build_record t l text e).finished_ts = 0 := by
  have h1 : (build_record t l text e).finished_at = (pick_finished_date text e).1 := rfl
  have h2 : (build_record t l text e).finished_ts = (pick_finished_date text e).2 := rfl
  rw [h2]
  exact pick_finished_date_empty (h1 ▸ h)

/-- C1 witness: a record built from an empty description and entry has an
empty `finished_at`, and the theorem gives `finished_ts = 0` there. -/
theorem finished_at_empty_imp_ts_zero_w :
    (build_record "T" "L" [] []).finished_at = "" ∧
    (build_record "T" "L" [] []).finished_ts = 0 :=
  ⟨by decide, finished_at_empty_imp_ts_zero "T" "L" [] [] (by decide)⟩

/-- C2 counterexample: with an explicit author label in the text and a
title carrying a `" by ..."` suffix, the code leaves the title unchanged
(the split runs only when no author was extracted), contradicting the
claim that the suffix is still stripped. -/
theorem author_label_title_not_stripped_cex :
    (build_record "The Road by Cormac McCarthy" "L" "author: Jane Doe".data []).title
        = "The Road by Cormac McCarthy" ∧
    (build_record "The Road by Cormac McCarthy" "L" "author: Jane Doe".data []).author
        = "Jane Doe" ∧
    (build_record "The Road by Cormac McCarthy" "L" "author: Jane Doe".data []).title
        ≠ "The Road" := by
  refine ⟨by decide, by decide, by decide⟩

/-- C2 (amended): when an author label was extracted from the text
(non-empty), the record keeps the stripped raw title unchanged, trailing
`" by ..."` suffix included, and uses the label-sourced author; the title
split happens only when no author was extracted. -/
theorem author_label_keeps_title (t l : String) (text : List Char) (e : Entry)
    (h : authorFromText text ≠ "") :
    (build_record t l text e).title = String.mk (pyStrip t.data) ∧
    (build_record t l text e).author = authorFromText text := by
  have hr := resolveTitleAuthor_author (String.mk (pyStrip t.data)) (authorFromText text) h
  constructor
  · show (resolveTitleAuthor (String.mk (pyStrip t.data)) (authorFromText text)).1 = _
    rw [hr]
  · show (resolveTitleAuthor (String.mk (pyStrip t.data)) (authorFromText text)).2 = _
    rw [hr]

/-- C2 witness: a concrete text with an author label keeps the
`" by ..."` suffix on the title. -/
theorem author_label_keeps_title_w :
    authorFromText "author: Jane Doe".data ≠ "" ∧
    (build_record "The Road by X" "L" "author: Jane Doe".data []).title
        = String.mk (pyStrip "The Road by X".data) ∧
    (build_record "The Road by X" "L" "author: Jane Doe".data []).author
        = authorFromText "author: Jane Doe".data :=
  ⟨by decide, author_label_keeps_title "The Road by X" "L" "author: Jane Doe".data [] (by decide)⟩

/-- C3 counterexample: the text blob carries the fallback label
`date_added: 2021-05-05`, and the entry carries the structured fallback
key `user_date_updated`; the code returns the structured value
(2020-01-01), not the text-blob match, because the fallback stage
interleaves text and structured probes per label. -/
theorem fallback_structured_over_text_cex :
    pick_finished_date "date_added: 2021-05-05".data
        [("user_date_updated", EntryVal.str "2020-01-01")]
      = ("2020-01-01", 1577836800) ∧
    tryTextLabel "date_added" "date_added: 2021-05-05".data = some ⟨2021, 5, 5⟩ := by
  refine ⟨by decide, by decide⟩

/-- C3 (amended): the fallback stage walks the fallback labels in a fixed
order and, for each label, tries the text blob before that same label as
a structured key; so when the first two stages fail and the first
fallback label (`user_date_updated`) matches in the text, its date is
used regardless of any structured fallback keys. -/
theorem fallback_text_first_label (text : List Char) (e : Entry) (d : PyDate)
    (h1 : primaryFromText text = none) (h2 : primaryFromEntry e = none)
    (h3 : tryTextLabel "user_date_updated" text = some d) :
    pick_finished_date text e = (iso_date d, ts_of d) := by
  have hp : fallbackProbe text e "user_date_updated" = some d := by
    unfold fallbackProbe
    rw [h3]
  have hf : fallbackPick text e = some d := by
    unfold fallbackPick fallbackLabels
    rw [List.findSome?_cons, hp]
  simp only [pick_finished_date, h1, h2, hf]

/-- C3 witness: the first fallback label matched in the text wins even
though a structured fallback key is present. -/
theorem fallback_text_first_label_w :
    primaryFromText "user_date_updated: 2021-03-04".data = none ∧
    primaryFromEntry [("date_updated", EntryVal.str "1999-01-01")] = none ∧
    tryTextLabel "user_date_updated" "user_date_updated: 2021-03-04".data = some ⟨2021, 3, 4⟩ ∧
    pick_finished_date "user_date_updated: 2021-03-04".data
        [("date_updated", EntryVal.str "1999-01-01")]
      = (iso_date ⟨2021, 3, 4⟩, ts_of ⟨2021, 3, 4⟩) :=
  ⟨by decide, by decide, by decide,
    fallback_text_first_label "user_date_updated: 2021-03-04".data
      [("date_updated", EntryVal.str "1999-01-01")] ⟨2021, 3, 4⟩
      (by decide) (by decide) (by decide)⟩

/-- C7 counterexample: a structured `user_rating` value of `-3` is
outside 1-5 yet is not treated as absent: the numeric range check fails
and the digit scan over `str(-3) = "-3"` recovers the standalone digit
`3`, so the record rating is `3`. -/
theorem rating_negative_entry_cex :
    (build_record "T" "L" [] [("user_rating", EntryVal.int (-3))]).rating = some 3 := by
  decide

/-- C7 (amended): the built record rating is always either absent or an
integer in 1-5 (never clamped), and a detected value of 0 collapses to
absent; however an out-of-range numeric structured value is not always
treated as absent: its string rendering is re-scanned for a standalone
digit 0-5, which can recover an in-range digit. -/
theorem rating_invariant :
    (∀ (t l : String) (text : List Char) (e : Entry),
        (build_record t l text e).rating = none ∨
        ∃ n, (build_record t l text e).rating = some n ∧ 1 ≤ n ∧ n ≤ 5) ∧
    (∀ (t l : String) (text : List Char) (e : Entry),
        grab_user_rating text e = some 0 → (build_record t l text e).rating = none) := by
  constructor
  · intro t l text e
    have hr : (build_record t l text e).rating = cleanRating (grab_user_rating text e) := rfl
    rw [hr]
    cases hg : grab_user_rating text e with
    | none => left; rfl
    | some n =>
      have h5 : n ≤ 5 := grab_user_rating_le hg
      by_cases h0 : n = 0
      · left; simp [cleanRating, h0]
      · right
        refine ⟨n, ?_, by omega, h5⟩
        simp [cleanRating, h0]
  · intro t l text e h
    have hr : (build_record t l text e).rating = cleanRating (grab_user_rating text e) := rfl
    rw [hr, h]
    rfl

/-- C7 witness: a text rating label of 0 collapses to an absent rating. -/
theorem rating_invariant_w :
    grab_user_rating "user_rating: 0".data [] = some 0 ∧
    (build_record "T" "L" "user_rating: 0".data []).rating = none :=
  ⟨by decide, rating_invariant.2 "T" "L" "user_rating: 0".data [] (by decide)⟩

/-- C8 counterexample: the claim says records with `finished_ts = 0` sort
to the end, but a pipeline-producible pre-epoch record (negative
timestamp) sorts after a zero-timestamp record, so the zero record is not
last. -/
theorem sort_zero_not_last_cex :
    sortTsDesc [build_record "A" "LA" [] [],
                build_record "B" "LB" "read_at: 1950-01-01".data []]
      = [build_record "A" "LA" [] [],
         build_record "B" "LB" "read_at: 1950-01-01".data []] ∧
    (build_record "A" "LA" [] []).finished_ts = 0 ∧
    (build_record "B" "LB" "read_at: 1950-01-01".data []).finished_ts < 0 := by
  refine ⟨by decide, by decide, by decide⟩

/-- C8 (amended): each refresh sorts the record list by `finished_ts`
descending; the sort is a permutation and is stable (records with equal
timestamps keep their relative feed order); zero-timestamp records sort
after all positive timestamps, but pre-epoch (negative) timestamps sort
after them, so `finished_ts = 0` records are last only among non-negative
timestamps; the concrete example `[100, 0, 300]` sorts to
`[300, 100, 0]`. -/
theorem sort_spec :
    (∀ l : List BookRecord,
        (sortTsDesc l).Pairwise (fun a b => b.finished_ts ≤ a.finished_ts)) ∧
    (∀ l : List BookRecord, List.Perm (sortTsDesc l) l) ∧
    (∀ (l : List BookRecord) (c : Int),
        (sortTsDesc l).filter (fun x => x.finished_ts == c)
          = l.filter (fun x => x.finished_ts == c)) ∧
    (sortTsDesc [{ sampleRecord with finished_ts := 100 },
                 { sampleRecord with finished_ts := 0 },
                 { sampleRecord with finished_ts := 300 }]).map BookRecord.finished_ts
      = [300, 100, 0] :=
  ⟨sortTsDesc_pairwise, sortTsDesc_perm, filter_sortTsDesc, by decide⟩

/-- C9: extraction is total by construction (every embedded extractor is
a total function returning a default on absence), and when nothing is
found anywhere - empty description text, empty structured entry, and no
`" by "` separator in the title - every extracted field of the built
record is the empty string / zero / absent value rather than an error. -/
theorem extraction_defaults_total (t l : String)
    (h : splitOnFirst " by ".data (pyStrip t.data) = none) :
    build_record t l [] [] =
      { title := String.mk (pyStrip t.data), author := "", finished_at := "",
        finished_ts := 0, rating := none, review := "", link := l } := by
  have h2 : splitOnFirst " by ".data (String.mk (pyStrip t.data)).data = none := h
  have hta := resolveTitleAuthor_noSplit (String.mk (pyStrip t.data)) h2
  unfold build_record
  rw [show authorFromText ([] : List Char) = "" from rfl, hta]
  rfl

/-- C9 witness: a plain title with nothing to extract yields the
all-default record. -/
theorem extraction_defaults_total_w :
    splitOnFirst " by ".data (pyStrip "Dune".data) = none ∧
    build_record "Dune" "URL" [] [] =
      { title := String.mk (pyStrip "Dune".data), author := "", finished_at := "",
        finished_ts := 0, rating := none, review := "", link := "URL" } :=
  ⟨by decide, extraction_defaults_total "Dune" "URL" (by decide)⟩

/-- C6 counterexample: the text contains the generic label line
`rating: 4` and the label line `user_rating: 5`, yet the extracted rating
is 4: the stray fragment `abuser rating: 4` is the leftmost match of the
user-rating pattern (`user` + separators + `rating` + colon + digit), so
its digit is returned instead of 5. -/
theorem user_rating_shadowed_cex :
    grab_user_rating "rating: 4\nabuser rating: 4\nuser_rating: 5".data [] = some 4 ∧
    hasSubstr "\nrating: 4".data "rating: 4\nabuser rating: 4\nuser_rating: 5".data = false ∧
    hasSubstr "rating: 4\n".data "rating: 4\nabuser rating: 4\nuser_rating: 5".data = true ∧
    hasSubstr "\nuser_rating: 5".data "rating: 4\nabuser rating: 4\nuser_rating: 5".data
      = true := by
  refine ⟨by decide, by decide, by decide, by decide⟩

/-- C6 (amended): the extractor returns the digit of the leftmost match
of the user-rating pattern in the text; hence for every text in which no
position before the `user_rating: 5` label matches that pattern, the
extracted rating is 5 (and in particular a generic `rating: 4` label
never matches it); but an earlier stray fragment that matches the
pattern - such as `abuser rating: 4` - wins instead. -/
theorem user_rating_first_match (pre post : List Char) (e : Entry)
    (h : ∀ i, i < pre.length →
        userRatingAt ((pre ++ ("user_rating: 5\n".data ++ post)).drop i) = none) :
    grab_user_rating (pre ++ ("user_rating: 5\n".data ++ post)) e = some 5 := by
  have h5 : searchUserRating (pre ++ ("user_rating: 5\n".data ++ post)) = some 5 := by
    unfold searchUserRating
    rw [scanFirst_skip userRatingAt pre.length _ h, List.drop_left]
    rfl
  simp only [grab_user_rating, h5]

/-- C6 witness: with a generic `rating: 4` line before the
`user_rating: 5` label and no earlier pattern match, the rating is 5. -/
theorem user_rating_first_match_w :
    (∀ i, i < ("rating: 4\n".data : List Char).length →
        userRatingAt (("rating: 4\n".data ++ ("user_rating: 5\n".data ++ "the end".data)).drop i)
          = none) ∧
    grab_user_rating ("rating: 4\n".data ++ ("user_rating: 5\n".data ++ "the end".data)) []
      = some 5 :=
  ⟨by decide, user_rating_first_match "rating: 4\n".data "the end".data [] (by decide)⟩

/-- C4 counterexample: a first successful read that stores an empty
record list is not a cache hit for the second read (the empty list is
falsy), so a second read within the TTL window fetches again - two
upstream fetches in one TTL window. -/
theorem empty_cache_refetch_cex :
    (finishedStep (some "u") none 1000 (Except.ok []) ⟨none, 0, 900⟩).1 = FinResponse.ok [] ∧
    (finishedStep (some "u") none 1000 (Except.ok []) ⟨none, 0, 900⟩).2.2 = true ∧
    (finishedStep (some "u") none 1001 (Except.ok [])
        (finishedStep (some "u") none 1000 (Except.ok []) ⟨none, 0, 900⟩).2.1).2.2 = true := by
  refine ⟨by decide, by decide, by decide⟩

/-- C4 (amended): provided the stored record list is non-empty, a read
within the TTL window returns the stored records unchanged and performs
no upstream fetch; a stored empty list is never treated as populated, so
it is re-fetched on every read. -/
theorem cache_hit_within_ttl (url : String) (hu : url ≠ "") (c : CacheState)
    (l : List BookRecord) (hl : c.items = some l) (hne : l ≠ [])
    (now : Int) (hfresh : now - c.ts < c.ttl) (f : Except String (List BookRecord)) :
    finishedStep (some url) none now f c = (FinResponse.ok l, c, false) := by
  simp [finishedStep, hu, nocacheTruthy, itemsTruthy, hl, hne, hfresh]

/-- C4 witness: a populated cache with a non-empty list within TTL
returns it without fetching. -/
theorem cache_hit_within_ttl_w :
    ("u" : String) ≠ "" ∧
    ([sampleRecord] : List BookRecord) ≠ [] ∧
    (500 : Int) - 100 < 900 ∧
    finishedStep (some "u") none 500 (Except.ok []) ⟨some [sampleRecord], 100, 900⟩
      = (FinResponse.ok [sampleRecord], ⟨some [sampleRecord], 100, 900⟩, false) :=
  ⟨by decide, by decide, by decide,
    cache_hit_within_ttl "u" (by decide) ⟨some [sampleRecord], 100, 900⟩ [sampleRecord] rfl
      (by decide) 500 (by decide) (Except.ok [])⟩

/-- C5 counterexample: a `nocache`-forced refresh resets the capture time
to 0 before fetching, so when the fetch then fails the previously
populated capture time (999700) is not left unchanged - only the records
are. -/
theorem nocache_failed_refresh_ts_cex :
    finishedStep (some "u") (some "1") 1000000 (Except.error "boom")
        ⟨some [sampleRecord], 999700, 900⟩
      = (FinResponse.fetchException "boom", ⟨some [sampleRecord], 0, 900⟩, true) ∧
    (999700 : Int) ≠ 0 := by
  refine ⟨by decide, by decide⟩

/-- C5 (amended): when the upstream fetch of a request fails, the stored
records are always left unchanged and the response is either the fetch
error (reported to that caller only) or a cache hit; the capture time is
also unchanged whenever the refresh was not forced via `nocache` (a
forced refresh zeroes it first). -/
theorem fetch_error_preserves_items (url msg : String) (hu : url ≠ "")
    (noc : Option String) (now : Int) (c : CacheState) (l : List BookRecord)
    (hpop : c.items = some l) :
    (finishedStep (some url) noc now (Except.error msg) c).2.1.items = c.items ∧
    ((finishedStep (some url) noc now (Except.error msg) c).1 = FinResponse.fetchException msg ∨
      (finishedStep (some url) noc now (Except.error msg) c).1 = FinResponse.ok l) ∧
    (nocacheTruthy noc = false →
      (finishedStep (some url) noc now (Except.error msg) c).2.1.ts = c.ts) := by
  have hcfg : ¬(some url = none ∨ some url = some "") := by simp [hu]
  unfold finishedStep
  rw [if_neg hcfg]
  set c1 := if nocacheTruthy noc then { c with ts := 0 } else c with hc1
  have hitems : c1.items = c.items := by
    rw [hc1]; split <;> rfl
  by_cases hhit : itemsTruthy c1.items ∧ now - c1.ts < c1.ttl
  · rw [if_pos hhit]
    refine ⟨hitems, ?_, ?_⟩
    · right
      have hget : c1.items.getD [] = l := by rw [hitems, hpop]; rfl
      exact congrArg FinResponse.ok hget
    · intro hno
      rw [hc1]
      simp [hno]
  · rw [if_neg hhit]
    refine ⟨hitems, Or.inl rfl, ?_⟩
    intro hno
    rw [hc1]
    simp [hno]

/-- C5 witness: a TTL-expired refresh whose fetch fails keeps the stored
records and capture time and reports the error to that caller. -/
theorem fetch_error_preserves_items_w :
    ("u" : String) ≠ "" ∧
    (⟨some [sampleRecord], 100, 900⟩ : CacheState).items = some [sampleRecord] ∧
    ((finishedStep (some "u") none 2000 (Except.error "boom")
        ⟨some [sampleRecord], 100, 900⟩).2.1.items
      = (⟨some [sampleRecord], 100, 900⟩ : CacheState).items ∧
    ((finishedStep (some "u") none 2000 (Except.error "boom")
        ⟨some [sampleRecord], 100, 900⟩).1 = FinResponse.fetchException "boom" ∨
      (finishedStep (some "u") none 2000 (Except.error "boom")
        ⟨some [sampleRecord], 100, 900⟩).1 = FinResponse.ok [sampleRecord]) ∧
    (nocacheTruthy none = false →
      (finishedStep (some "u") none 2000 (Except.error "boom")
        ⟨some [sampleRecord], 100, 900⟩).2.1.ts
        = (⟨some [sampleRecord], 100, 900⟩ : CacheState).ts)) :=
  ⟨by decide, rfl,
    fetch_error_preserves_items "u" "boom" (by decide) none 2000
      ⟨some [sampleRecord], 100, 900⟩ [sampleRecord] rfl⟩

/-- C10: any non-empty `nocache` string (including "0" and "false") is
truthy in Python and forces a fetch (assuming a realistic clock,
`ttl ≤ now`), while an absent or empty-string `nocache` leaves the normal
cache policy: fetch exactly when the cache is not a fresh populated
one. -/
theorem nocache_forces_refresh (url s : String) (hu : url ≠ "") (hs : s ≠ "")
    (c : CacheState) (now : Int) (hnow : c.ttl ≤ now)
    (f : Except String (List BookRecord)) :
    (finishedStep (some url) (some s) now f c).2.2 = true ∧
    (finishedStep (some url) none now f c).2.2
        = (if itemsTruthy c.items ∧ now - c.ts < c.ttl then false else true) ∧
    (finishedStep (some url) (some "") now f c).2.2
        = (if itemsTruthy c.items ∧ now - c.ts < c.ttl then false else true) := by
  have hcfg : ¬(some url = none ∨ some url = some "") := by simp [hu]
  refine ⟨?_, ?_, ?_⟩
  · unfold finishedStep
    rw [if_neg hcfg]
    rw [if_pos (show nocacheTruthy (some s) = true by simp [nocacheTruthy, hs])]
    have hmiss : ¬(itemsTruthy ({ c with ts := 0 } : CacheState).items ∧
        now - ({ c with ts := 0 } : CacheState).ts < ({ c with ts := 0 } : CacheState).ttl) := by
      rintro ⟨-, h2⟩
      simp only at h2
      omega
    rw [if_neg hmiss]
    cases f <;> rfl
  · unfold finishedStep
    rw [if_neg hcfg]
    rw [if_neg (show ¬(nocacheTruthy none = true) by simp [nocacheTruthy])]
    by_cases hhit : itemsTruthy c.items ∧ now - c.ts < c.ttl
    · rw [if_pos hhit, if_pos hhit]
    · rw [if_neg hhit, if_neg hhit]
      cases f <;> rfl
  · unfold finishedStep
    rw [if_neg hcfg]
    rw [if_neg (show ¬(nocacheTruthy (some "") = true) by simp [nocacheTruthy])]
    by_cases hhit : itemsTruthy c.items ∧ now - c.ts < c.ttl
    · rw [if_pos hhit, if_pos hhit]
    · rw [if_neg hhit, if_neg hhit]
      cases f <;> rfl

/-- C10 witness: with a populated but expired cache, `nocache=0` forces a
fetch and a plain read follows the normal policy. -/
theorem nocache_forces_refresh_w :
    ("u" : String) ≠ "" ∧
    ("0" : String) ≠ "" ∧
    (⟨some [sampleRecord], 100, 900⟩ : CacheState).ttl ≤ (1000 : Int) ∧
    ((finishedStep (some "u") (some "0") 1000 (Except.ok [])
        ⟨some [sampleRecord], 100, 900⟩).2.2 = true ∧
    (finishedStep (some "u") none 1000 (Except.ok [])
        ⟨some [sampleRecord], 100, 900⟩).2.2
      = (if itemsTruthy (⟨some [sampleRecord], 100, 900⟩ : CacheState).items ∧
            (1000 : Int) - (⟨some [sampleRecord], 100, 900⟩ : CacheState).ts
              < (⟨some [sampleRecord], 100, 900⟩ : CacheState).ttl
          then false else true) ∧
    (finishedStep (some "u") (some "") 1000 (Except.ok [])
        ⟨some [sampleRecord], 100, 900⟩).2.2
      = (if itemsTruthy (⟨some [sampleRecord], 100, 900⟩ : CacheState).items ∧
            (1000 : Int) - (⟨some [sampleRecord], 100, 900⟩ : CacheState).ts
              < (⟨some [sampleRecord], 100, 900⟩ : CacheState).ttl
          then false else true)) :=
  ⟨by decide, by decide, by decide,
    nocache_forces_refresh "u" "0" (by decide) (by decide)
      ⟨some [sampleRecord], 100, 900⟩ 1000 (by decide) (Except.ok [])⟩
